import Mathlib

/-!
Verification of the long-polling coordination core of `nta_eval_svc`.

The development shallowly embeds the three components of
`src/nta_eval_svc/services/polling_service.py` and
`src/nta_eval_svc/middleware.py`:

* `ConnectionManager` — per-client and global connection admission
  (`connect` / `disconnect`);
* `LongPollingService.poll_for_results` — the polling loop, modelled as a
  pure function over an explicit environment (`PollEnv`) that records the
  values produced by the wall clock, the database reads and the sleeps;
* `RateLimitingMiddleware.dispatch` — the sliding-window rate limiter
  (only its rate-accounting core; HTTP plumbing and key derivation are
  caller-supplied inputs, as in the source).

Machine time is modelled by `ℚ` (Python floats, compared exactly);
Python exceptions are modelled by explicit result constructors, and the
`finally` blocks by unconditional state transformations.
-/

/-- The long-polling knobs of `Config` (`src/nta_eval_svc/config.py`).
Only the fields consumed by the verified core are modelled; counts are
naturals, times are rationals. -/
structure Config where
  LONG_POLLING_GLOBAL_MAX_CONNECTIONS : ℕ
  LONG_POLLING_MAX_CLIENT_CONNECTIONS : ℕ
  LONG_POLLING_POLL_INTERVAL : ℚ
  LONG_POLLING_RATE_LIMIT_INTERVAL : ℚ
  LONG_POLLING_RATE_LIMIT_REQUESTS : ℕ

/-! ## ConnectionManager -/

/-- State of `ConnectionManager`.  The Python `defaultdict(set)` is modelled
by the pair (`client_keys`, `client_sets`): `client_keys` is the dictionary's
key set and `client_sets` gives the stored set for each key (its value
outside `client_keys` is irrelevant; all reads go through `clientSet` or
`touchClient`).  `global_connections` is the set of
`(client_ip, evaluation_id)` tuples. -/
structure ConnectionManager where
  client_keys : Finset String
  client_sets : String → Finset String
  global_connections : Finset (String × String)

/-- `ConnectionManager.__init__`: empty defaultdict, empty global set. -/
def ConnectionManager.init : ConnectionManager :=
  { client_keys := ∅, client_sets := fun _ => ∅, global_connections := ∅ }

/-- `self._client_connections.get(client_ip, set())`: the stored set of a
client, or the empty set when the key is absent. -/
def ConnectionManager.clientSet (cm : ConnectionManager) (ip : String) : Finset String :=
  if ip ∈ cm.client_keys then cm.client_sets ip else ∅

/-- A `defaultdict` read `self._client_connections[client_ip]`: when the key
is absent it is inserted with a fresh empty set (the read value is
`clientSet` of the resulting state). -/
def ConnectionManager.touchClient (cm : ConnectionManager) (ip : String) : ConnectionManager :=
  if ip ∈ cm.client_keys then cm
  else { cm with
          client_keys := insert ip cm.client_keys,
          client_sets := Function.update cm.client_sets ip ∅ }

/-- Result of `ConnectionManager.connect`: `ok` for a normal return,
`denied` for `HTTPException(429, "Connection limit exceeded")`. -/
inductive ConnectResult where
  | ok
  | denied
deriving DecidableEq, Repr

/-- `ConnectionManager.connect` (polling_service.py lines 41-63).  The global
cap is checked first (raising leaves the state untouched); the per-client cap
check performs a `defaultdict` access, so it may insert the client key even
when it denies; on success the pair is added to the global set and the id to
the client's set. -/
def ConnectionManager.connect (cfg : Config) (cm : ConnectionManager)
    (client_ip evaluation_id : String) : ConnectResult × ConnectionManager :=
  if cfg.LONG_POLLING_GLOBAL_MAX_CONNECTIONS ≤ cm.global_connections.card then
    (.denied, cm)
  else
    let cm1 := cm.touchClient client_ip
    if cfg.LONG_POLLING_MAX_CLIENT_CONNECTIONS ≤ (cm1.clientSet client_ip).card then
      (.denied, cm1)
    else
      (.ok, { cm1 with
        global_connections := insert (client_ip, evaluation_id) cm1.global_connections,
        client_sets := Function.update cm1.client_sets client_ip
          (insert evaluation_id (cm1.clientSet client_ip)) })

/-- `ConnectionManager.disconnect` (polling_service.py lines 65-78).  The pair
is discarded from the global set if present; the id is discarded from the
client's set if present, and the client's dictionary entry is deleted when
the set becomes empty.  The Python body is wrapped in a blanket
`try/except`, so the operation never raises; the model is a total
function. -/
def ConnectionManager.disconnect (cm : ConnectionManager)
    (client_ip evaluation_id : String) : ConnectionManager :=
  let cm1 :=
    if (client_ip, evaluation_id) ∈ cm.global_connections then
      { cm with global_connections := cm.global_connections.erase (client_ip, evaluation_id) }
    else cm
  if evaluation_id ∈ cm1.clientSet client_ip then
    let s := (cm1.clientSet client_ip).erase evaluation_id
    if s = ∅ then
      { cm1 with
        client_keys := cm1.client_keys.erase client_ip,
        client_sets := Function.update cm1.client_sets client_ip ∅ }
    else
      { cm1 with client_sets := Function.update cm1.client_sets client_ip s }
  else cm1

/-! ## The polling loop -/

/-- A stored `completed_at` value.  `isoformatResult = none` models
`.isoformat()` raising, in which case the code falls back to `str(value)`
(`strResult`). -/
structure Timestamp where
  isoformatResult : Option String
  strResult : String
deriving DecidableEq, Repr

/-- The fields of an `EvaluationJob` row read by the polling service.
`created_at = none` models `.timestamp()` raising (missing/malformed value);
`results` is the JSON payload, treated as opaque. -/
structure EvaluationJob where
  id : String
  status : String
  results : Option String
  error_message : Option String
  created_at : Option ℚ
  completed_at : Option Timestamp
deriving DecidableEq, Repr

/-- Result of one database read of the job row: the read raised
(`failure`), returned no row (`missing`), or returned a row (`found`). -/
inductive ReadResult where
  | failure
  | missing
  | found (job : EvaluationJob)
deriving DecidableEq, Repr

/-- Best-effort string conversion of `completed_at`
(polling_service.py lines 168-173): `None` stays `None`, otherwise
`isoformat()` and on exception `str(...)`. -/
def convertCompletedAt : Option Timestamp → Option String
  | none => none
  | some ts => some (ts.isoformatResult.getD ts.strResult)

/-- The timeout test at the top of each loop iteration
(polling_service.py line 139): the remaining budget relative to the job's
creation time is exhausted, or the loop has run for more than
`timeout_seconds` of wall-clock time. -/
def timedOut (timeout_seconds created_at start now : ℚ) : Prop :=
  timeout_seconds - (now - created_at) ≤ 0 ∨ timeout_seconds < now - start

instance (timeout_seconds created_at start now : ℚ) :
    Decidable (timedOut timeout_seconds created_at start now) :=
  inferInstanceAs (Decidable (_ ∨ _))

/-- The adaptive sleep duration (polling_service.py line 187). -/
def sleep_for (cfg : Config) (remaining_timeout : ℚ) : ℚ :=
  min cfg.LONG_POLLING_POLL_INTERVAL (max (1 / 100) (remaining_timeout / 4))

/-- Environment of one loop iteration: the `time.time()` value observed at
the top of the iteration, the outcome of the fresh database read, and
whether the trailing `asyncio.sleep` completed without raising. -/
structure PollTick where
  now : ℚ
  read : ReadResult
  sleepOk : Bool
deriving DecidableEq, Repr

/-- Outcome of `poll_for_results`: `denied` is the 429 raised by `connect`,
`notFound` is `HTTPException(404, "Evaluation job not found")`, `timeout` is
the dictionary with status `"timeout"`, and `terminal` is the success
dictionary with the job's fields. -/
inductive PollOutcome where
  | denied
  | notFound
  | timeout
  | terminal (id status : String) (results : Option String)
      (error_message : Option String) (completed_at : Option String)
deriving DecidableEq, Repr

/-- The `while True` loop of `poll_for_results`
(polling_service.py lines 133-194), consuming one `PollTick` per iteration:
check the timeout condition; read the job (a raise yields the timeout
dictionary, a missing row raises 404); on a terminal status build the
success dictionary; otherwise sleep (a raise in the sleep yields the
timeout dictionary) and iterate.  `none` means the supplied environment was
exhausted before the loop exited. -/
def pollLoop (timeout_seconds created_at start : ℚ) :
    List PollTick → Option PollOutcome
  | [] => none
  | tk :: rest =>
    if timedOut timeout_seconds created_at start tk.now then
      some .timeout
    else
      match tk.read with
      | .failure => some .timeout
      | .missing => some .notFound
      | .found job =>
        if job.status = "completed" ∨ job.status = "failed" then
          some (.terminal job.id job.status job.results job.error_message
            (convertCompletedAt job.completed_at))
        else if tk.sleepOk then
          pollLoop timeout_seconds created_at start rest
        else
          some .timeout

/-- Environment of one `poll_for_results` call: the initial (pre-loop) read,
the `time.time()` used as fallback when `created_at` is unavailable, the
`time.time()` captured as `start_polling_loop_time`, and the per-iteration
ticks. -/
structure PollEnv where
  initialRead : ReadResult
  fallbackNow : ℚ
  loopStart : ℚ
  ticks : List PollTick
deriving DecidableEq, Repr

/-- The `try` body of `poll_for_results` (polling_service.py lines 100-194):
a raising initial read maps to 404 (line 113), an absent row to 404
(line 122), and otherwise the loop runs with `created_at` taken from the job
(falling back to the current time, line 129). -/
def pollBody (timeout_seconds : ℚ) (env : PollEnv) : Option PollOutcome :=
  match env.initialRead with
  | .failure => some .notFound
  | .missing => some .notFound
  | .found job =>
    pollLoop timeout_seconds (job.created_at.getD env.fallbackNow) env.loopStart env.ticks

/-- `LongPollingService.poll_for_results` (polling_service.py lines 98-201).
Admission is acquired first; a denial propagates before the `try` block, so
no release happens (nothing was acquired).  The `finally` block releases
admission on every body exit, normal or raising. -/
def poll_for_results (cfg : Config) (cm : ConnectionManager)
    (evaluation_id : String) (timeout_seconds : ℚ) (client_ip : String)
    (env : PollEnv) : Option (PollOutcome × ConnectionManager) :=
  match cm.connect cfg client_ip evaluation_id with
  | (.denied, cm1) => some (.denied, cm1)
  | (.ok, cm1) =>
    (pollBody timeout_seconds env).map
      fun out => (out, cm1.disconnect client_ip evaluation_id)

/-! ## Rate limiting middleware -/

/-- State of `RateLimitingMiddleware`: per-key deques of request timestamps
(head = oldest).  The `defaultdict(deque)` is modelled as a total function
defaulting to the empty list. -/
structure RateLimitingMiddleware where
  client_requests : String → List ℚ
deriving Inhabited

/-- Decision of one dispatch: the request is forwarded (`allowed`) or
answered with the 429 `RateLimitResponse` (`limited`). -/
inductive RateDecision where
  | allowed
  | limited
deriving DecidableEq, Repr

/-- The front-pruning `while` loop (middleware.py lines 104-106): pop from
the left while the head is strictly older than the cutoff. -/
def pruneOld (cutoff : ℚ) : List ℚ → List ℚ
  | [] => []
  | t :: ts => if t < cutoff then pruneOld cutoff ts else t :: ts

/-- The rate-accounting core of `RateLimitingMiddleware.dispatch`
(middleware.py lines 96-125).  The key (client ip, optionally namespaced by
the test header) and `now` are inputs; old entries are pruned from the
front; at or above the cap the 429 response is returned and nothing is
recorded; otherwise `now` is appended and the request forwarded. -/
def RateLimitingMiddleware.dispatch (cfg : Config) (self : RateLimitingMiddleware)
    (key : String) (now : ℚ) : RateDecision × RateLimitingMiddleware :=
  let dq := self.client_requests key
  let cutoff := now - cfg.LONG_POLLING_RATE_LIMIT_INTERVAL
  let dq1 := pruneOld cutoff dq
  if cfg.LONG_POLLING_RATE_LIMIT_REQUESTS ≤ dq1.length then
    (.limited, { client_requests := Function.update self.client_requests key dq1 })
  else
    (.allowed, { client_requests := Function.update self.client_requests key (dq1 ++ [now]) })

/-! ## Concrete fixtures used to instantiate the theorems -/

/-- A small configuration: global cap 2, per-client cap 1, poll interval
0.5 s, rate window 60 s, rate cap 2. -/
def cfgW : Config := ⟨2, 1, 1 / 2, 60, 2⟩

/-- A manager holding two connections of client `"a"`. -/
def cmTwo : ConnectionManager :=
  ⟨{"a"}, Function.update (fun _ => ∅) "a" ({"e1", "e2"} : Finset String),
    ({("a", "e1"), ("a", "e2")} : Finset (String × String))⟩

/-- A manager holding the single connection `("c", "e")`. -/
def cmPair : ConnectionManager :=
  ⟨{"c"}, Function.update (fun _ => ∅) "c" ({"e"} : Finset String),
    ({("c", "e")} : Finset (String × String))⟩

/-- A pending job created at time 0. -/
def jobPending : EvaluationJob := ⟨"e", "pending", none, none, some 0, none⟩

/-- A completed job created at time 0. -/
def jobDone : EvaluationJob :=
  ⟨"e", "completed", some "r1", none, some 0, some ⟨some "t1", "t2"⟩⟩

/-- A rate limiter that has recorded requests at times 0, 1 and 30 for key
`"k"`. -/
def rlW : RateLimitingMiddleware :=
  ⟨Function.update (fun _ => []) "k" [0, 1, 30]⟩

/-- Consistency of the two bookkeeping structures of `ConnectionManager`:
each client's per-client set holds exactly the evaluation ids paired with
that client in the global connection set. -/
def ConnectionInv (cm : ConnectionManager) : Prop :=
  ∀ ip ev, ev ∈ cm.clientSet ip ↔ (ip, ev) ∈ cm.global_connections

/-- A loop iteration that neither exits nor fails: the timeout condition is
false, the fresh read finds the job in a non-terminal status, and the
trailing sleep completes. -/
def continuesAt (timeout_seconds created_at start : ℚ) (tk : PollTick) : Prop :=
  ¬ timedOut timeout_seconds created_at start tk.now ∧
  (∃ job, tk.read = .found job ∧
    ¬ (job.status = "completed" ∨ job.status = "failed")) ∧
  tk.sleepOk = true

/-- Two loop iterations observing a pending job, the second one past the
deadline. -/
def ticksW : List PollTick :=
  [⟨1, .found jobPending, true⟩, ⟨20, .found jobPending, true⟩]

/-! ## Helper lemmas on the connection manager -/

theorem clientSet_touchClient (cm : ConnectionManager) (ip k : String) :
    (cm.touchClient ip).clientSet k = cm.clientSet k := by
  unfold ConnectionManager.touchClient
  split
  · rfl
  · rename_i hip
    by_cases hk : k = ip
    · subst hk
      simp [ConnectionManager.clientSet, hip]
    · simp [ConnectionManager.clientSet, Finset.mem_insert, hk, Function.update_noteq hk]

theorem global_touchClient (cm : ConnectionManager) (ip : String) :
    (cm.touchClient ip).global_connections = cm.global_connections := by
  unfold ConnectionManager.touchClient
  split <;> rfl

theorem clientSet_mem_keys {cm : ConnectionManager} {ip : String} {ev : String}
    (h : ev ∈ cm.clientSet ip) : ip ∈ cm.client_keys := by
  unfold ConnectionManager.clientSet at h
  by_cases hip : ip ∈ cm.client_keys
  · exact hip
  · simp [hip] at h

theorem disconnect_global_not_mem (cm : ConnectionManager) (ip ev : String) :
    (ip, ev) ∉ (cm.disconnect ip ev).global_connections := by
  unfold ConnectionManager.disconnect
  by_cases h1 : (ip, ev) ∈ cm.global_connections <;>
    simp only [h1, if_true, if_false] <;>
    split <;> try split
  all_goals simp [Finset.not_mem_erase, h1]

theorem disconnect_clientSet_not_mem (cm : ConnectionManager) (ip ev : String) :
    ev ∉ (cm.disconnect ip ev).clientSet ip := by
  unfold ConnectionManager.disconnect
  by_cases h1 : (ip, ev) ∈ cm.global_connections <;>
    simp only [h1, if_true, if_false] <;>
    split <;> try split
  all_goals
    simp_all [ConnectionManager.clientSet, Finset.not_mem_erase, Function.update_same]
  all_goals
    by_cases hip : ip ∈ cm.client_keys <;> simp [hip, Finset.not_mem_erase]

theorem connect_of_global_full {cfg : Config} {cm : ConnectionManager} (ip ev : String)
    (h1 : cfg.LONG_POLLING_GLOBAL_MAX_CONNECTIONS ≤ cm.global_connections.card) :
    ConnectionManager.connect cfg cm ip ev = (.denied, cm) := by
  unfold ConnectionManager.connect
  simp [h1]

theorem connect_of_client_full {cfg : Config} {cm : ConnectionManager} (ip ev : String)
    (h1 : ¬ cfg.LONG_POLLING_GLOBAL_MAX_CONNECTIONS ≤ cm.global_connections.card)
    (h2 : cfg.LONG_POLLING_MAX_CLIENT_CONNECTIONS ≤ (cm.clientSet ip).card) :
    ConnectionManager.connect cfg cm ip ev = (.denied, cm.touchClient ip) := by
  unfold ConnectionManager.connect
  simp [h1, clientSet_touchClient, h2]

theorem connect_of_ok {cfg : Config} {cm : ConnectionManager} (ip ev : String)
    (h1 : ¬ cfg.LONG_POLLING_GLOBAL_MAX_CONNECTIONS ≤ cm.global_connections.card)
    (h2 : ¬ cfg.LONG_POLLING_MAX_CLIENT_CONNECTIONS ≤ (cm.clientSet ip).card) :
    ConnectionManager.connect cfg cm ip ev =
      (.ok, ⟨insert ip cm.client_keys,
        Function.update cm.client_sets ip (insert ev (cm.clientSet ip)),
        insert (ip, ev) cm.global_connections⟩) := by
  unfold ConnectionManager.connect
  simp only [h1, if_false, clientSet_touchClient, h2, ite_false, if_neg]
  unfold ConnectionManager.touchClient
  by_cases hip : ip ∈ cm.client_keys
  · simp [hip, ConnectionManager.clientSet, Finset.insert_eq_self.mpr hip]
  · simp [hip, ConnectionManager.clientSet, Function.update_idem, global_touchClient]

theorem disconnect_of_not_mem_client {cm : ConnectionManager} {ip ev : String}
    (h : ev ∉ cm.clientSet ip) :
    cm.disconnect ip ev =
      ⟨cm.client_keys, cm.client_sets, cm.global_connections.erase (ip, ev)⟩ := by
  unfold ConnectionManager.disconnect
  by_cases h1 : (ip, ev) ∈ cm.global_connections <;>
    simp_all [ConnectionManager.clientSet, Finset.erase_eq_of_not_mem]

theorem disconnect_of_erase_empty {cm : ConnectionManager} {ip ev : String}
    (hc : ev ∈ cm.clientSet ip) (hs : (cm.clientSet ip).erase ev = ∅) :
    cm.disconnect ip ev =
      ⟨cm.client_keys.erase ip, Function.update cm.client_sets ip ∅,
        cm.global_connections.erase (ip, ev)⟩ := by
  have hip : ip ∈ cm.client_keys := clientSet_mem_keys hc
  unfold ConnectionManager.disconnect
  by_cases h1 : (ip, ev) ∈ cm.global_connections <;>
    simp_all [ConnectionManager.clientSet, hip, Finset.erase_eq_of_not_mem]

theorem disconnect_of_erase_ne {cm : ConnectionManager} {ip ev : String}
    (hc : ev ∈ cm.clientSet ip) (hs : (cm.clientSet ip).erase ev ≠ ∅) :
    cm.disconnect ip ev =
      ⟨cm.client_keys, Function.update cm.client_sets ip ((cm.clientSet ip).erase ev),
        cm.global_connections.erase (ip, ev)⟩ := by
  have hip : ip ∈ cm.client_keys := clientSet_mem_keys hc
  unfold ConnectionManager.disconnect
  by_cases h1 : (ip, ev) ∈ cm.global_connections <;>
    simp_all [ConnectionManager.clientSet, hip, Finset.erase_eq_of_not_mem]

/-! ## Claim C4: connection admission caps -/

/-- C4: `ConnectionManager.connect` succeeds iff the global active-connection
count is below the global cap and the client's active count is below the
per-client cap.  The global cap is checked first: when it is reached the
call denies with the state completely untouched, and the (G+1)-th
acquisition is denied whatever the client; when global capacity remains but
the client is at the per-client cap, the call still denies. -/
theorem connect_caps (cfg : Config) (cm : ConnectionManager) (ip ev : String) :
    ((ConnectionManager.connect cfg cm ip ev).1 = .ok ↔
      cm.global_connections.card < cfg.LONG_POLLING_GLOBAL_MAX_CONNECTIONS ∧
      (cm.clientSet ip).card < cfg.LONG_POLLING_MAX_CLIENT_CONNECTIONS) ∧
    (cfg.LONG_POLLING_GLOBAL_MAX_CONNECTIONS ≤ cm.global_connections.card →
      ConnectionManager.connect cfg cm ip ev = (.denied, cm)) ∧
    (cm.global_connections.card < cfg.LONG_POLLING_GLOBAL_MAX_CONNECTIONS →
      cfg.LONG_POLLING_MAX_CLIENT_CONNECTIONS ≤ (cm.clientSet ip).card →
      (ConnectionManager.connect cfg cm ip ev).1 = .denied) := by
  by_cases h1 : cfg.LONG_POLLING_GLOBAL_MAX_CONNECTIONS ≤ cm.global_connections.card
  · refine ⟨?_, fun _ => connect_of_global_full ip ev h1, fun hlt _ => ?_⟩
    · rw [connect_of_global_full ip ev h1]
      simp [Nat.not_lt.mpr h1]
    · exact absurd h1 (Nat.not_le.mpr hlt)
  · by_cases h2 : cfg.LONG_POLLING_MAX_CLIENT_CONNECTIONS ≤ (cm.clientSet ip).card
    · refine ⟨?_, fun hle => absurd hle h1, fun _ _ => ?_⟩
      · rw [connect_of_client_full ip ev h1 h2]
        simp [Nat.not_lt.mpr h2]
      · rw [connect_of_client_full ip ev h1 h2]
    · refine ⟨?_, fun hle => absurd hle h1, fun _ hle => absurd hle h2⟩
      rw [connect_of_ok ip ev h1 h2]
      simp [Nat.not_le.mp h1, Nat.not_le.mp h2]

/-- Witness for C4: on the empty manager a connect is admitted; `cmTwo`
holds two connections, which is the global cap of `cfgW`, so a third
acquisition from a fresh client is denied with the state unchanged; the
client of `cmPair` is at the per-client cap of 1, so its second acquisition
is denied although global capacity remains. -/
theorem connect_caps_witness :
    (ConnectionManager.connect cfgW ConnectionManager.init "c" "e").1 = .ok ∧
    ConnectionManager.connect cfgW cmTwo "b" "f" = (.denied, cmTwo) ∧
    (ConnectionManager.connect cfgW cmPair "c" "f").1 = .denied := by
  refine ⟨?_, ?_, ?_⟩
  · exact (connect_caps cfgW ConnectionManager.init "c" "e").1.mpr (by decide)
  · exact (connect_caps cfgW cmTwo "b" "f").2.1 (by decide)
  · exact (connect_caps cfgW cmPair "c" "f").2.2 (by decide) (by decide)

/-! ## Claim C8: disconnect semantics -/

/-- C8: `disconnect` (a total function here; the Python body is guarded by a
blanket `try/except`, so it never raises) is a no-op on a pair that was
never admitted; it removes the pair from the global set and the id from the
client's per-client set unconditionally; it deletes the per-client map entry
whose set becomes empty; and it preserves the property that every client in
the per-client map has at least one active connection. -/
theorem disconnect_spec (cm : ConnectionManager) (ip ev : String) :
    ((ip, ev) ∉ cm.global_connections → ev ∉ cm.clientSet ip →
      cm.disconnect ip ev = cm) ∧
    ((ip, ev) ∉ (cm.disconnect ip ev).global_connections ∧
      ev ∉ (cm.disconnect ip ev).clientSet ip) ∧
    (ev ∈ cm.clientSet ip → (cm.clientSet ip).erase ev = ∅ →
      ip ∉ (cm.disconnect ip ev).client_keys) ∧
    ((∀ k ∈ cm.client_keys, cm.clientSet k ≠ ∅) →
      ∀ k ∈ (cm.disconnect ip ev).client_keys, (cm.disconnect ip ev).clientSet k ≠ ∅) := by
  refine ⟨fun hg hc => ?_, ⟨disconnect_global_not_mem cm ip ev,
    disconnect_clientSet_not_mem cm ip ev⟩, fun hc hs => ?_, fun hne k => ?_⟩
  · rw [disconnect_of_not_mem_client hc, Finset.erase_eq_of_not_mem hg]
  · rw [disconnect_of_erase_empty hc hs]
    exact Finset.not_mem_erase ip cm.client_keys
  · by_cases hc : ev ∈ cm.clientSet ip
    · by_cases hs : (cm.clientSet ip).erase ev = ∅
      · rw [disconnect_of_erase_empty hc hs]
        intro hk
        have hk' := Finset.mem_of_mem_erase hk
        have hne' := Finset.ne_of_mem_erase hk
        simpa [ConnectionManager.clientSet, hk', hne', Function.update_noteq hne'] using
          (by simpa [ConnectionManager.clientSet, hk'] using hne k hk')
      · rw [disconnect_of_erase_ne hc hs]
        intro hk
        by_cases hkip : k = ip
        · subst hkip
          simpa [ConnectionManager.clientSet, hk, Function.update_same] using hs
        · simpa [ConnectionManager.clientSet, hk, Function.update_noteq hkip] using
            (by simpa [ConnectionManager.clientSet, hk] using hne k hk)
    · rw [disconnect_of_not_mem_client hc]
      intro hk
      simpa [ConnectionManager.clientSet, hk] using
        (by simpa [ConnectionManager.clientSet, hk] using hne k hk)

/-- Witness for C8: releasing the never-admitted pair `("c", "e")` on the
empty manager leaves it unchanged, and releasing the admitted pair of
`cmPair` empties and deletes its client's entry. -/
theorem disconnect_spec_witness :
    ConnectionManager.init.disconnect "c" "e" = ConnectionManager.init ∧
    ("c", "e") ∉ (cmPair.disconnect "c" "e").global_connections ∧
    "c" ∉ (cmPair.disconnect "c" "e").client_keys := by
  refine ⟨(disconnect_spec ConnectionManager.init "c" "e").1 (by decide) (by decide),
    (disconnect_spec cmPair "c" "e").2.1.1,
    (disconnect_spec cmPair "c" "e").2.2.1 (by decide) (by decide)⟩

/-! ## Claim C10: admission is set membership, not a counter -/

/-- C10: when the pair `(ip, ev)` is already admitted, a successful
`connect` for it leaves the state exactly unchanged (no count grows), and a
single `disconnect` then removes the pair entirely from the global set and
from the client's per-client set. -/
theorem connect_set_semantics (cfg : Config) (cm : ConnectionManager) (ip ev : String)
    (hg : (ip, ev) ∈ cm.global_connections) (hc : ev ∈ cm.clientSet ip) :
    ((ConnectionManager.connect cfg cm ip ev).1 = .ok →
      ConnectionManager.connect cfg cm ip ev = (.ok, cm)) ∧
    ((ip, ev) ∉ (cm.disconnect ip ev).global_connections ∧
      ev ∉ (cm.disconnect ip ev).clientSet ip) := by
  refine ⟨fun hok => ?_, disconnect_global_not_mem cm ip ev,
    disconnect_clientSet_not_mem cm ip ev⟩
  have hip : ip ∈ cm.client_keys := clientSet_mem_keys hc
  by_cases h1 : cfg.LONG_POLLING_GLOBAL_MAX_CONNECTIONS ≤ cm.global_connections.card
  · rw [connect_of_global_full ip ev h1] at hok
    exact absurd hok (by simp)
  · by_cases h2 : cfg.LONG_POLLING_MAX_CLIENT_CONNECTIONS ≤ (cm.clientSet ip).card
    · rw [connect_of_client_full ip ev h1 h2] at hok
      exact absurd hok (by simp)
    · rw [connect_of_ok ip ev h1 h2]
      have hc' : ev ∈ cm.client_sets ip := by
        simpa [ConnectionManager.clientSet, hip] using hc
      obtain ⟨ks, ss, gs⟩ := cm
      simp_all [ConnectionManager.clientSet, Finset.insert_eq_self.mpr hip,
        Finset.insert_eq_self.mpr hc', Finset.insert_eq_self.mpr hg,
        Function.update_eq_self]

/-- Witness for C10: on `cmPair` (which already holds `("c", "e")`) a
successful re-connect with a relaxed config changes nothing, and one
disconnect removes the pair. -/
theorem connect_set_semantics_witness :
    (ConnectionManager.connect ⟨9, 9, 1 / 2, 60, 2⟩ cmPair "c" "e" = (.ok, cmPair)) ∧
    ("c", "e") ∉ (cmPair.disconnect "c" "e").global_connections := by
  have h := connect_set_semantics ⟨9, 9, 1 / 2, 60, 2⟩ cmPair "c" "e" (by decide) (by decide)
  refine ⟨h.1 ?_, h.2.1⟩
  rw [connect_of_ok "c" "e" (by decide) (by decide)]

/-! ## Claim C9: the per-client sets mirror the global set -/

theorem clientSet_mk (ks : Finset String) (ss : String → Finset String)
    (gs : Finset (String × String)) (ip : String) :
    (ConnectionManager.mk ks ss gs).clientSet ip = if ip ∈ ks then ss ip else ∅ := rfl

/-- C9: `ConnectionInv` holds of the initial state and is preserved by every
`connect` (whatever its outcome) and every `disconnect`; under it the global
set's size is the sum of the sizes of the per-client sets. -/
theorem connection_invariant (cfg : Config) (cm : ConnectionManager) (ip ev : String) :
    ConnectionInv ConnectionManager.init ∧
    (ConnectionInv cm → ConnectionInv (ConnectionManager.connect cfg cm ip ev).2) ∧
    (ConnectionInv cm → ConnectionInv (cm.disconnect ip ev)) ∧
    (ConnectionInv cm →
      cm.global_connections.card = ∑ k ∈ cm.client_keys, (cm.clientSet k).card) := by
  refine ⟨?_, ?_, ?_, ?_⟩
  · intro k e
    simp [ConnectionManager.clientSet, ConnectionManager.init]
  · intro hinv
    by_cases h1 : cfg.LONG_POLLING_GLOBAL_MAX_CONNECTIONS ≤ cm.global_connections.card
    · rw [connect_of_global_full ip ev h1]
      exact hinv
    · by_cases h2 : cfg.LONG_POLLING_MAX_CLIENT_CONNECTIONS ≤ (cm.clientSet ip).card
      · rw [connect_of_client_full ip ev h1 h2]
        intro k e
        rw [clientSet_touchClient, global_touchClient]
        exact hinv k e
      · rw [connect_of_ok ip ev h1 h2]
        intro k e
        rw [clientSet_mk]
        by_cases hk : k = ip
        · subst hk
          rw [if_pos (Finset.mem_insert_self k cm.client_keys), Function.update_same]
          simp [Finset.mem_insert, Prod.mk.injEq, hinv k e]
        · rw [Function.update_noteq hk]
          have hcond : (if k ∈ insert ip cm.client_keys then cm.client_sets k else ∅) =
              cm.clientSet k := by
            simp [ConnectionManager.clientSet, Finset.mem_insert, hk]
          rw [hcond]
          simp [Finset.mem_insert, Prod.mk.injEq, hk, hinv k e]
  · intro hinv
    by_cases hc : ev ∈ cm.clientSet ip
    · have hip : ip ∈ cm.client_keys := clientSet_mem_keys hc
      by_cases hs : (cm.clientSet ip).erase ev = ∅
      · rw [disconnect_of_erase_empty hc hs]
        intro k e
        rw [clientSet_mk]
        by_cases hk : k = ip
        · subst hk
          rw [if_neg (Finset.not_mem_erase k cm.client_keys)]
          simp only [Finset.not_mem_empty, false_iff, Finset.mem_erase, Prod.mk.injEq, not_and]
          rintro hne hg
          have hmem : e ∈ (cm.clientSet k).erase ev :=
            Finset.mem_erase.mpr ⟨fun h => hne (by simp [h]), (hinv k e).mpr hg⟩
          rw [hs] at hmem
          exact absurd hmem (Finset.not_mem_empty e)
        · have hcond : (if k ∈ cm.client_keys.erase ip then
              Function.update cm.client_sets ip ∅ k else ∅) = cm.clientSet k := by
            simp [ConnectionManager.clientSet, Finset.mem_erase, hk, Function.update_noteq hk]
          rw [hcond]
          simp [Finset.mem_erase, Prod.mk.injEq, hk, hinv k e]
      · rw [disconnect_of_erase_ne hc hs]
        intro k e
        rw [clientSet_mk]
        by_cases hk : k = ip
        · subst hk
          rw [if_pos hip, Function.update_same]
          simp [Finset.mem_erase, Prod.mk.injEq, hinv k e]
        · rw [Function.update_noteq hk]
          have hcond : (if k ∈ cm.client_keys then cm.client_sets k else ∅) =
              cm.clientSet k := rfl
          rw [hcond]
          simp [Finset.mem_erase, Prod.mk.injEq, hk, hinv k e]
    · rw [disconnect_of_not_mem_client hc]
      have hg : (ip, ev) ∉ cm.global_connections := fun h => hc ((hinv ip ev).mpr h)
      intro k e
      rw [clientSet_mk, Finset.erase_eq_of_not_mem hg]
      exact hinv k e
  · intro hinv
    have hfib : ∀ x ∈ cm.global_connections, x.1 ∈ cm.client_keys := by
      rintro ⟨a, b⟩ hx
      exact clientSet_mem_keys ((hinv a b).mpr hx)
    rw [Finset.card_eq_sum_card_fiberwise hfib]
    refine Finset.sum_congr rfl fun k hk => ?_
    have hset : cm.global_connections.filter (fun a => a.1 = k) =
        (cm.clientSet k).map ⟨fun e => (k, e), fun x y h => by injection h⟩ := by
      ext ⟨a, b⟩
      simp only [Finset.mem_filter, Finset.mem_map, Function.Embedding.coeFn_mk,
        Prod.mk.injEq]
      constructor
      · rintro ⟨hg, rfl⟩
        exact ⟨b, (hinv a b).mpr hg, rfl, rfl⟩
      · rintro ⟨e, he, rfl, rfl⟩
        exact ⟨(hinv k e).mp he, rfl⟩
    rw [hset, Finset.card_map]

/-- Witness for C9: the invariant transported through a connect on the
initial state, and the cardinality identity evaluated on `cmPair`. -/
theorem connection_invariant_witness :
    ConnectionInv (ConnectionManager.connect cfgW ConnectionManager.init "c" "e").2 ∧
    cmPair.global_connections.card = ∑ k ∈ cmPair.client_keys, (cmPair.clientSet k).card := by
  have h0 := connection_invariant cfgW ConnectionManager.init "c" "e"
  have hpair := connection_invariant cfgW cmPair "c" "e"
  refine ⟨h0.2.1 h0.1, hpair.2.2.2 ?_⟩
  intro ip e
  by_cases hip : ip = "c" <;>
    simp [cmPair, ConnectionManager.clientSet, hip, Prod.ext_iff]

/-! ## Claim C5: sliding-window rate limiting -/

theorem pruneOld_eq_filter {dq : List ℚ} (cutoff : ℚ) (h : List.Sorted (· ≤ ·) dq) :
    pruneOld cutoff dq = dq.filter (fun t => decide (cutoff ≤ t)) := by
  induction dq with
  | nil => rfl
  | cons t ts ih =>
    rw [List.sorted_cons] at h
    obtain ⟨hall, hts⟩ := h
    by_cases hlt : t < cutoff
    · rw [pruneOld, if_pos hlt, List.filter_cons, ih hts]
      simp [not_le.mpr hlt]
    · have hct : cutoff ≤ t := not_lt.mp hlt
      have hfilter : ts.filter (fun x => decide (cutoff ≤ x)) = ts :=
        List.filter_eq_self.mpr fun a ha => by simpa using le_trans hct (hall a ha)
      rw [pruneOld, if_neg hlt, List.filter_cons]
      simp [hct, hfilter]

theorem pruneOld_nil_of_all_lt {dq : List ℚ} {cutoff : ℚ}
    (h : ∀ t ∈ dq, t < cutoff) : pruneOld cutoff dq = [] := by
  induction dq with
  | nil => rfl
  | cons t ts ih =>
    rw [pruneOld, if_pos (h t (List.mem_cons_self t ts))]
    exact ih fun a ha => h a (List.mem_cons_of_mem t ha)

/-- C5: each dispatch prunes, from the front of the key's deque, exactly the
entries older than `now - window` (the deque being time-ordered); with at
least `max_requests` surviving entries the request is rejected with the 429
response and no timestamp is recorded; otherwise `now` is appended and the
request forwarded.  Consequently, once every recorded timestamp of the key
is older than the window, the next check is allowed regardless of the prior
count (for a positive `max_requests`). -/
theorem rate_limit_spec (cfg : Config) (st : RateLimitingMiddleware) (key : String) (now : ℚ) :
    (List.Sorted (· ≤ ·) (st.client_requests key) →
      pruneOld (now - cfg.LONG_POLLING_RATE_LIMIT_INTERVAL) (st.client_requests key) =
        (st.client_requests key).filter
          (fun t => decide (now - cfg.LONG_POLLING_RATE_LIMIT_INTERVAL ≤ t))) ∧
    (cfg.LONG_POLLING_RATE_LIMIT_REQUESTS ≤
        (pruneOld (now - cfg.LONG_POLLING_RATE_LIMIT_INTERVAL) (st.client_requests key)).length →
      st.dispatch cfg key now = (.limited,
        ⟨Function.update st.client_requests key
          (pruneOld (now - cfg.LONG_POLLING_RATE_LIMIT_INTERVAL) (st.client_requests key))⟩)) ∧
    ((pruneOld (now - cfg.LONG_POLLING_RATE_LIMIT_INTERVAL) (st.client_requests key)).length <
        cfg.LONG_POLLING_RATE_LIMIT_REQUESTS →
      st.dispatch cfg key now = (.allowed,
        ⟨Function.update st.client_requests key
          (pruneOld (now - cfg.LONG_POLLING_RATE_LIMIT_INTERVAL) (st.client_requests key)
            ++ [now])⟩)) ∧
    ((∀ t ∈ st.client_requests key, t < now - cfg.LONG_POLLING_RATE_LIMIT_INTERVAL) →
      0 < cfg.LONG_POLLING_RATE_LIMIT_REQUESTS →
      (st.dispatch cfg key now).1 = .allowed) := by
  refine ⟨fun hs => pruneOld_eq_filter _ hs, fun hfull => ?_, fun hroom => ?_, fun hold hpos => ?_⟩
  · unfold RateLimitingMiddleware.dispatch
    simp [hfull]
  · unfold RateLimitingMiddleware.dispatch
    simp [Nat.not_le.mpr hroom]
  · unfold RateLimitingMiddleware.dispatch
    simp [pruneOld_nil_of_all_lt hold, Nat.not_le.mpr hpos]

/-- Witness for C5: key `"k"` of `rlW` saw requests at 0, 1 and 30; at time
61 (window 60, cap 2) the entry 0 is pruned, two survive and the request is
rejected without recording; at time 100 all are pruned and the request is
allowed again. -/
theorem rlW_prune_61 :
    pruneOld (61 - cfgW.LONG_POLLING_RATE_LIMIT_INTERVAL) (rlW.client_requests "k") =
      [1, 30] := by
  norm_num [cfgW, rlW, pruneOld, Function.update_same]

theorem rlW_len_61 :
    cfgW.LONG_POLLING_RATE_LIMIT_REQUESTS ≤
      (pruneOld (61 - cfgW.LONG_POLLING_RATE_LIMIT_INTERVAL)
        (rlW.client_requests "k")).length := by
  rw [rlW_prune_61]
  norm_num [cfgW]

theorem rlW_old_100 :
    ∀ t ∈ rlW.client_requests "k", t < 100 - cfgW.LONG_POLLING_RATE_LIMIT_INTERVAL := by
  intro t ht
  simp only [rlW, Function.update_same, List.mem_cons, List.not_mem_nil, or_false] at ht
  rcases ht with rfl | rfl | rfl <;> norm_num [cfgW]

theorem rate_limit_spec_witness :
    rlW.dispatch cfgW "k" 61 =
      (.limited, ⟨Function.update rlW.client_requests "k" [1, 30]⟩) ∧
    (rlW.dispatch cfgW "k" 100).1 = .allowed := by
  constructor
  · have h := (rate_limit_spec cfgW rlW "k" 61).2.1 rlW_len_61
    rw [rlW_prune_61] at h
    exact h
  · exact (rate_limit_spec cfgW rlW "k" 100).2.2.2 rlW_old_100 (by decide)

/-! ## Helper lemmas on the polling loop -/

theorem connect_eq_ok {cfg : Config} {cm : ConnectionManager} {ip ev : String}
    (h : (ConnectionManager.connect cfg cm ip ev).1 = .ok) :
    ConnectionManager.connect cfg cm ip ev =
      (.ok, (ConnectionManager.connect cfg cm ip ev).2) :=
  Prod.ext h rfl

theorem poll_for_results_of_ok {cfg : Config} {cm cm1 : ConnectionManager}
    {ip ev : String} {T : ℚ} (env : PollEnv)
    (hconn : ConnectionManager.connect cfg cm ip ev = (.ok, cm1)) :
    poll_for_results cfg cm ev T ip env =
      (pollBody T env).map fun out => (out, cm1.disconnect ip ev) := by
  unfold poll_for_results
  rw [hconn]

theorem pollLoop_cons_timedOut {T c s : ℚ} {tk : PollTick} {rest : List PollTick}
    (hnt : timedOut T c s tk.now) :
    pollLoop T c s (tk :: rest) = some .timeout := by
  simp only [pollLoop, if_pos hnt]

theorem pollLoop_cons_terminal {T c s : ℚ} {tk : PollTick} {rest : List PollTick}
    {job : EvaluationJob}
    (hnt : ¬ timedOut T c s tk.now) (hread : tk.read = .found job)
    (hterm : job.status = "completed" ∨ job.status = "failed") :
    pollLoop T c s (tk :: rest) =
      some (.terminal job.id job.status job.results job.error_message
        (convertCompletedAt job.completed_at)) := by
  simp only [pollLoop, if_neg hnt, hread, if_pos hterm]

theorem pollLoop_cons_missing {T c s : ℚ} {tk : PollTick} {rest : List PollTick}
    (hnt : ¬ timedOut T c s tk.now) (hread : tk.read = .missing) :
    pollLoop T c s (tk :: rest) = some .notFound := by
  simp only [pollLoop, if_neg hnt, hread]

theorem pollLoop_cons_failure {T c s : ℚ} {tk : PollTick} {rest : List PollTick}
    (hnt : ¬ timedOut T c s tk.now) (hread : tk.read = .failure) :
    pollLoop T c s (tk :: rest) = some .timeout := by
  simp only [pollLoop, if_neg hnt, hread]

theorem pollLoop_append_continues {T c s : ℚ} {pre : List PollTick}
    (rest : List PollTick) (h : ∀ t ∈ pre, continuesAt T c s t) :
    pollLoop T c s (pre ++ rest) = pollLoop T c s rest := by
  induction pre with
  | nil => rfl
  | cons tk pre ih =>
    obtain ⟨hnt, ⟨job, hread, hterm⟩, hsleep⟩ := h tk (List.mem_cons_self tk pre)
    rw [List.cons_append]
    simp only [pollLoop, if_neg hnt, hread, if_neg hterm, hsleep, if_true]
    exact ih fun t ht => h t (List.mem_cons_of_mem tk ht)

theorem pollLoop_timeout_iff {T c s : ℚ} {ticks : List PollTick}
    (h : ∀ tk ∈ ticks, (∃ job, tk.read = .found job ∧
      ¬ (job.status = "completed" ∨ job.status = "failed")) ∧ tk.sleepOk = true) :
    pollLoop T c s ticks = some .timeout ↔ ∃ tk ∈ ticks, timedOut T c s tk.now := by
  induction ticks with
  | nil => simp [pollLoop]
  | cons tk rest ih =>
    obtain ⟨⟨job, hread, hterm⟩, hsleep⟩ := h tk (List.mem_cons_self tk rest)
    by_cases hnt : timedOut T c s tk.now
    · rw [pollLoop_cons_timedOut hnt]
      exact iff_of_true rfl ⟨tk, List.mem_cons_self tk rest, hnt⟩
    · simp only [pollLoop, if_neg hnt, hread, if_neg hterm, hsleep, if_true]
      rw [ih fun t ht => h t (List.mem_cons_of_mem tk ht)]
      constructor
      · rintro ⟨t, ht, hto⟩
        exact ⟨t, List.mem_cons_of_mem tk ht, hto⟩
      · rintro ⟨t, ht, hto⟩
        rcases List.mem_cons.mp ht with rfl | ht'
        · exact absurd hto hnt
        · exact ⟨t, ht', hto⟩

theorem timedOut_tick1_false : ¬ timedOut 10 ((jobPending.created_at).getD 0) 0 1 := by
  norm_num [timedOut, jobPending]

theorem timedOut_tick20 : timedOut 10 ((jobPending.created_at).getD 0) 0 20 := by
  norm_num [timedOut, jobPending]

theorem ticksW_nonterminal :
    ∀ tk ∈ ticksW, (∃ job, tk.read = .found job ∧
      ¬ (job.status = "completed" ∨ job.status = "failed")) ∧ tk.sleepOk = true := by
  intro tk htk
  rcases List.mem_cons.mp htk with rfl | htk'
  · exact ⟨⟨jobPending, rfl, by decide⟩, rfl⟩
  · rcases List.mem_cons.mp htk' with rfl | h
    · exact ⟨⟨jobPending, rfl, by decide⟩, rfl⟩
    · exact absurd h (List.not_mem_nil tk)

/-! ## Claim C1: terminal status yields the success outcome -/

/-- C1: if, after any number of non-exiting iterations (the case of zero
iterations being the "already terminal at the start" situation: the initial
read only establishes existence, the first loop read decides), a loop read
finds the job in a terminal status before the timeout condition holds, then
`poll_for_results` returns the success outcome carrying the job's id,
status, results payload, error message and best-effort string conversion of
`completed_at` — immediately, consuming no further tick and no sleep (the
remaining ticks `rest` and the tick's own sleep are unused). -/
theorem poll_terminal (cfg : Config) (cm : ConnectionManager) (ev_id : String) (T : ℚ)
    (ip : String) (job0 job : EvaluationJob) (fb st : ℚ) (pre rest : List PollTick)
    (tk : PollTick)
    (hconn : (ConnectionManager.connect cfg cm ip ev_id).1 = .ok)
    (hpre : ∀ t ∈ pre, continuesAt T (job0.created_at.getD fb) st t)
    (hread : tk.read = .found job)
    (hterm : job.status = "completed" ∨ job.status = "failed")
    (htime : ¬ timedOut T (job0.created_at.getD fb) st tk.now) :
    poll_for_results cfg cm ev_id T ip ⟨.found job0, fb, st, pre ++ tk :: rest⟩ =
      some (.terminal job.id job.status job.results job.error_message
          (convertCompletedAt job.completed_at),
        (ConnectionManager.connect cfg cm ip ev_id).2.disconnect ip ev_id) := by
  rw [poll_for_results_of_ok _ (connect_eq_ok hconn)]
  unfold pollBody
  simp only []
  rw [pollLoop_append_continues _ hpre, pollLoop_cons_terminal htime hread hterm]
  rfl

/-- Witness for C1: a pending job read as completed on the first loop
iteration at time 1 (budget 10) yields the success outcome at once. -/
theorem poll_terminal_witness :
    poll_for_results cfgW ConnectionManager.init "e" 10 "c"
        ⟨.found jobPending, 0, 0, [⟨1, .found jobDone, true⟩]⟩ =
      some (.terminal jobDone.id jobDone.status jobDone.results jobDone.error_message
          (convertCompletedAt jobDone.completed_at),
        (ConnectionManager.connect cfgW ConnectionManager.init "c" "e").2.disconnect
          "c" "e") :=
  poll_terminal cfgW ConnectionManager.init "e" 10 "c" jobPending jobDone 0 0 [] []
    ⟨1, .found jobDone, true⟩ (by decide) (by simp) rfl (Or.inl rfl) timedOut_tick1_false

/-! ## Claim C2: when the timeout outcome is produced -/

/-- C2 counterexample: a run whose loop read raises at time 1 — long before
the timeout condition `10 - (1 - 0) ≤ 0 ∨ 10 < 1 - 0` holds — still returns
the timeout outcome, so "returns timeout exactly when the deadline condition
holds at the start of a loop iteration" is false as an equivalence. -/
theorem poll_timeout_without_deadline :
    (poll_for_results cfgW ConnectionManager.init "e" 10 "c"
        ⟨.found jobPending, 0, 0, [⟨1, .failure, true⟩]⟩).map Prod.fst =
      some PollOutcome.timeout ∧
    ¬ timedOut 10 ((jobPending.created_at).getD 0) 0 1 := by
  refine ⟨?_, timedOut_tick1_false⟩
  rw [poll_for_results_of_ok _ (connect_eq_ok (by decide))]
  unfold pollBody
  simp only []
  rw [pollLoop_cons_failure timedOut_tick1_false rfl]
  rfl

/-- C2 (amended): provided every loop iteration's read succeeds and finds
the job in a non-terminal status and every sleep completes (read failures
also degrade to the timeout outcome — see C7 — as do sleep failures),
`poll_for_results` returns the timeout outcome exactly when some loop
iteration starts at a clock reading satisfying
`timeout - (now - created_at) ≤ 0 ∨ timeout < now - loop_start`. -/
theorem poll_timeout_iff (cfg : Config) (cm : ConnectionManager) (ev_id : String)
    (T : ℚ) (ip : String) (job0 : EvaluationJob) (fb st : ℚ) (ticks : List PollTick)
    (hconn : (ConnectionManager.connect cfg cm ip ev_id).1 = .ok)
    (hticks : ∀ tk ∈ ticks, (∃ job, tk.read = .found job ∧
      ¬ (job.status = "completed" ∨ job.status = "failed")) ∧ tk.sleepOk = true) :
    (poll_for_results cfg cm ev_id T ip ⟨.found job0, fb, st, ticks⟩).map Prod.fst =
        some PollOutcome.timeout ↔
      ∃ tk ∈ ticks, timedOut T (job0.created_at.getD fb) st tk.now := by
  rw [poll_for_results_of_ok _ (connect_eq_ok hconn)]
  unfold pollBody
  simp only [Option.map_map]
  have hid : (Prod.fst ∘ fun out => ((out : PollOutcome),
      (ConnectionManager.connect cfg cm ip ev_id).2.disconnect ip ev_id)) = id := rfl
  rw [hid, Option.map_id]
  exact pollLoop_timeout_iff hticks

/-- Witness for the amended C2: with reads always finding the pending job,
the run over `ticksW` (second iteration at time 20 > deadline) produces the
timeout outcome. -/
theorem poll_timeout_iff_witness :
    (poll_for_results cfgW ConnectionManager.init "e" 10 "c"
        ⟨.found jobPending, 0, 0, ticksW⟩).map Prod.fst = some PollOutcome.timeout :=
  (poll_timeout_iff cfgW ConnectionManager.init "e" 10 "c" jobPending 0 0 ticksW
    (by decide) ticksW_nonterminal).mpr
    ⟨⟨20, .found jobPending, true⟩, by simp [ticksW], timedOut_tick20⟩

/-! ## Claim C6: missing job yields an immediate 404 -/

/-- C6: when the initial pre-loop read finds no row, `poll_for_results`
raises the 404 outcome immediately — the result is the same for every loop
environment, in particular for an empty one, so no loop iteration or sleep
is consumed — and the admission acquired in step 1 is still released (the
pair is absent from the resulting state).  Likewise, a row that disappears
between loop reads produces the same 404 outcome. -/
theorem poll_not_found (cfg : Config) (cm : ConnectionManager) (ev_id : String)
    (T : ℚ) (ip : String) (fb st : ℚ) (ticks : List PollTick)
    (hconn : (ConnectionManager.connect cfg cm ip ev_id).1 = .ok) :
    (poll_for_results cfg cm ev_id T ip ⟨.missing, fb, st, ticks⟩ =
        some (.notFound,
          (ConnectionManager.connect cfg cm ip ev_id).2.disconnect ip ev_id) ∧
      (ip, ev_id) ∉
        ((ConnectionManager.connect cfg cm ip ev_id).2.disconnect ip ev_id).global_connections ∧
      ev_id ∉
        ((ConnectionManager.connect cfg cm ip ev_id).2.disconnect ip ev_id).clientSet ip) ∧
    (∀ (job0 : EvaluationJob) (pre rest : List PollTick) (tk : PollTick),
      (∀ t ∈ pre, continuesAt T (job0.created_at.getD fb) st t) →
      tk.read = .missing →
      ¬ timedOut T (job0.created_at.getD fb) st tk.now →
      poll_for_results cfg cm ev_id T ip ⟨.found job0, fb, st, pre ++ tk :: rest⟩ =
        some (.notFound,
          (ConnectionManager.connect cfg cm ip ev_id).2.disconnect ip ev_id)) := by
  constructor
  · refine ⟨?_, disconnect_global_not_mem _ ip ev_id, disconnect_clientSet_not_mem _ ip ev_id⟩
    rw [poll_for_results_of_ok _ (connect_eq_ok hconn)]
    rfl
  · intro job0 pre rest tk hpre hread htime
    rw [poll_for_results_of_ok _ (connect_eq_ok hconn)]
    unfold pollBody
    simp only []
    rw [pollLoop_append_continues _ hpre, pollLoop_cons_missing htime hread]
    rfl

/-- Witness for C6: polling a nonexistent id on the empty manager returns
the 404 outcome with an empty loop environment, and the vanished-mid-loop
case at time 1. -/
theorem poll_not_found_witness :
    poll_for_results cfgW ConnectionManager.init "e" 10 "c" ⟨.missing, 0, 0, []⟩ =
      some (.notFound,
        (ConnectionManager.connect cfgW ConnectionManager.init "c" "e").2.disconnect
          "c" "e") ∧
    poll_for_results cfgW ConnectionManager.init "e" 10 "c"
        ⟨.found jobPending, 0, 0, [⟨1, .missing, true⟩]⟩ =
      some (.notFound,
        (ConnectionManager.connect cfgW ConnectionManager.init "c" "e").2.disconnect
          "c" "e") :=
  ⟨((poll_not_found cfgW ConnectionManager.init "e" 10 "c" 0 0 [] (by decide)).1).1,
    (poll_not_found cfgW ConnectionManager.init "e" 10 "c" 0 0 []
      (by decide)).2 jobPending [] [] ⟨1, .missing, true⟩ (by simp) rfl
      timedOut_tick1_false⟩

/-! ## Claim C7: read failures degrade to 404 (initial) or timeout (loop) -/

/-- C7: a failure of the initial pre-loop read is surfaced as the 404
not-found outcome (`HTTPException(404)`, not a 500), for every loop
environment; a failure of a loop read makes `poll_for_results` return the
timeout outcome instead of propagating an error. -/
theorem poll_read_failure (cfg : Config) (cm : ConnectionManager) (ev_id : String)
    (T : ℚ) (ip : String) (fb st : ℚ) (ticks : List PollTick)
    (hconn : (ConnectionManager.connect cfg cm ip ev_id).1 = .ok) :
    (poll_for_results cfg cm ev_id T ip ⟨.failure, fb, st, ticks⟩ =
      some (.notFound,
        (ConnectionManager.connect cfg cm ip ev_id).2.disconnect ip ev_id)) ∧
    (∀ (job0 : EvaluationJob) (pre rest : List PollTick) (tk : PollTick),
      (∀ t ∈ pre, continuesAt T (job0.created_at.getD fb) st t) →
      tk.read = .failure →
      ¬ timedOut T (job0.created_at.getD fb) st tk.now →
      poll_for_results cfg cm ev_id T ip ⟨.found job0, fb, st, pre ++ tk :: rest⟩ =
        some (.timeout,
          (ConnectionManager.connect cfg cm ip ev_id).2.disconnect ip ev_id)) := by
  constructor
  · rw [poll_for_results_of_ok _ (connect_eq_ok hconn)]
    rfl
  · intro job0 pre rest tk hpre hread htime
    rw [poll_for_results_of_ok _ (connect_eq_ok hconn)]
    unfold pollBody
    simp only []
    rw [pollLoop_append_continues _ hpre, pollLoop_cons_failure htime hread]
    rfl

/-- Witness for C7: an initial read failure gives the 404 outcome; a loop
read failure at time 1 gives the timeout outcome. -/
theorem poll_read_failure_witness :
    poll_for_results cfgW ConnectionManager.init "e" 10 "c" ⟨.failure, 0, 0, []⟩ =
      some (.notFound,
        (ConnectionManager.connect cfgW ConnectionManager.init "c" "e").2.disconnect
          "c" "e") ∧
    poll_for_results cfgW ConnectionManager.init "e" 10 "c"
        ⟨.found jobPending, 0, 0, [⟨1, .failure, true⟩]⟩ =
      some (.timeout,
        (ConnectionManager.connect cfgW ConnectionManager.init "c" "e").2.disconnect
          "c" "e") :=
  ⟨(poll_read_failure cfgW ConnectionManager.init "e" 10 "c" 0 0 [] (by decide)).1,
    (poll_read_failure cfgW ConnectionManager.init "e" 10 "c" 0 0 []
      (by decide)).2 jobPending [] [] ⟨1, .failure, true⟩ (by simp) rfl
      timedOut_tick1_false⟩

/-! ## Claim C3: every exit path releases the admission -/

/-- C3: whenever `poll_for_results` completes (with success, timeout,
not-found or denial) for a pair that was not held beforehand, the pair is
absent from the global connection set and from the client's per-client set
of the resulting state: a slot acquired by the call is always released by
the `finally` block, and a denied call acquired nothing. -/
theorem poll_releases (cfg : Config) (cm : ConnectionManager) (ev_id : String)
    (T : ℚ) (ip : String) (env : PollEnv) (res : PollOutcome) (cm' : ConnectionManager)
    (h : poll_for_results cfg cm ev_id T ip env = some (res, cm'))
    (hg : (ip, ev_id) ∉ cm.global_connections)
    (hc : ev_id ∉ cm.clientSet ip) :
    (ip, ev_id) ∉ cm'.global_connections ∧ ev_id ∉ cm'.clientSet ip := by
  by_cases h1 : cfg.LONG_POLLING_GLOBAL_MAX_CONNECTIONS ≤ cm.global_connections.card
  · unfold poll_for_results at h
    rw [connect_of_global_full ip ev_id h1] at h
    simp only [Option.some.injEq, Prod.mk.injEq] at h
    rw [← h.2]
    exact ⟨hg, hc⟩
  · by_cases h2 : cfg.LONG_POLLING_MAX_CLIENT_CONNECTIONS ≤ (cm.clientSet ip).card
    · unfold poll_for_results at h
      rw [connect_of_client_full ip ev_id h1 h2] at h
      simp only [Option.some.injEq, Prod.mk.injEq] at h
      rw [← h.2, global_touchClient, clientSet_touchClient]
      exact ⟨hg, hc⟩
    · rw [poll_for_results_of_ok _ (connect_eq_ok (by
        rw [connect_of_ok ip ev_id h1 h2]))] at h
      rcases Option.map_eq_some'.mp h with ⟨out, _, hout⟩
      have hcm' : cm' = (ConnectionManager.connect cfg cm ip ev_id).2.disconnect ip ev_id :=
        ((Prod.mk.injEq _ _ _ _).mp hout).2.symm
      rw [hcm']
      exact ⟨disconnect_global_not_mem _ ip ev_id, disconnect_clientSet_not_mem _ ip ev_id⟩

/-- Witness for C3: a complete not-found run on the empty manager releases
the slot it acquired. -/
theorem poll_releases_witness :
    ("c", "e") ∉
      ((ConnectionManager.connect cfgW ConnectionManager.init "c" "e").2.disconnect
        "c" "e").global_connections ∧
    "e" ∉
      ((ConnectionManager.connect cfgW ConnectionManager.init "c" "e").2.disconnect
        "c" "e").clientSet "c" :=
  poll_releases cfgW ConnectionManager.init "e" 10 "c" ⟨.missing, 0, 0, []⟩ .notFound
    ((ConnectionManager.connect cfgW ConnectionManager.init "c" "e").2.disconnect "c" "e")
    rfl (by decide) (by decide)
